import Mathlib

/-!
Verification of the SimpleAuthLink authapi core: a shallow embedding of the
token and session lifecycle engine (src/apps.go, src/unnamed/part_003), the
in-memory storage driver (src/unnamed/part_010, `db.TempDriver`), the email
delivery queue (src/email/emailqueue.go, src/email/errors.go) and the
identifier derivation helpers (src/helpers/helpers.go), together with theorems
settling the specified properties of these components.

Conventions of the embedding: Go byte slices are `List Nat` (each entry one
byte), `uint32` arithmetic is `Nat` reduced by `w32`, `int64`/time values are
`Int` (expirations are unix nanoseconds, as stored by `TempDriver.SetToken`),
Go maps are association lists with insert-replacing-existing-key semantics,
randomness (`rand.Uint64` behind `helpers.RandBytes`) is passed in as an
explicit byte-list argument, and `time.Now()` is an explicit `now` argument.
Fallible Go functions returning `(T, error)` become `Except String T`, with
the Go error message as the payload.
-/

namespace AuthAPI

set_option maxRecDepth 16384

/-- Truncation to 32 bits, modelling Go `uint32` arithmetic. -/
def w32 (x : Nat) : Nat := x % 4294967296

/-- Right rotation of a 32-bit word. -/
def rotr (x n : Nat) : Nat := w32 ((x >>> n) ||| (x <<< (32 - n)))

/-- Logical right shift. -/
def shr (x n : Nat) : Nat := x >>> n

def bigSigma0 (x : Nat) : Nat := rotr x 2 ^^^ rotr x 13 ^^^ rotr x 22

def bigSigma1 (x : Nat) : Nat := rotr x 6 ^^^ rotr x 11 ^^^ rotr x 25

def smallSigma0 (x : Nat) : Nat := rotr x 7 ^^^ rotr x 18 ^^^ shr x 3

def smallSigma1 (x : Nat) : Nat := rotr x 17 ^^^ rotr x 19 ^^^ shr x 10

/-- The SHA-256 choice function; the complement of `x` is taken against the
32-bit all-ones word. -/
def chFn (x y z : Nat) : Nat := (x &&& y) ^^^ ((4294967295 - x) &&& z)

def majFn (x y z : Nat) : Nat := (x &&& y) ^^^ (x &&& z) ^^^ (y &&& z)

/-- The SHA-256 round constants. -/
def k256 : List Nat :=
  [1116352408, 1899447441, 3049323471, 3921009573, 961987163, 1508970993,
   2453635748, 2870763221, 3624381080, 310598401, 607225278, 1426881987,
   1925078388, 2162078206, 2614888103, 3248222580, 3835390401, 4022224774,
   264347078, 604807628, 770255983, 1249150122, 1555081692, 1996064986,
   2554220882, 2821834349, 2952996808, 3210313671, 3336571891, 3584528711,
   113926993, 338241895, 666307205, 773529912, 1294757372, 1396182291,
   1695183700, 1986661051, 2177026350, 2456956037, 2730485921, 2820302411,
   3259730800, 3345764771, 3516065817, 3600352804, 4094571909, 275423344,
   430227734, 506948616, 659060556, 883997877, 958139571, 1322822218,
   1537002063, 1747873779, 1955562222, 2024104815, 2227730452, 2361852424,
   2428436474, 2756734187, 3204031479, 3329325298]

/-- The eight working registers of the SHA-256 compression function. -/
structure Regs where
  a : Nat
  b : Nat
  c : Nat
  d : Nat
  e : Nat
  f : Nat
  g : Nat
  h : Nat

def initRegs : Regs :=
  ⟨1779033703, 3144134277, 1013904242, 2773480762, 1359893119, 2600822924, 528734635, 1541459225⟩

/-- One SHA-256 round; `kw` is the 32-bit sum of the round constant and the
message-schedule word. -/
def compressStep (r : Regs) (kw : Nat) : Regs :=
  let t1 := w32 (r.h + bigSigma1 r.e + chFn r.e r.f r.g + kw)
  let t2 := w32 (bigSigma0 r.a + majFn r.a r.b r.c)
  ⟨w32 (t1 + t2), r.a, r.b, r.c, w32 (r.d + t1), r.e, r.f, r.g⟩

/-- Big-endian packing of groups of 4 bytes into 32-bit words. -/
def bytesToWords : List Nat → List Nat
  | b0 :: b1 :: b2 :: b3 :: rest =>
    (b0 * 16777216 + b1 * 65536 + b2 * 256 + b3) :: bytesToWords rest
  | _ => []

def nextW (ws : List Nat) : Nat :=
  let n := ws.length
  w32 (smallSigma1 (ws.getD (n - 2) 0) + ws.getD (n - 7) 0 +
       smallSigma0 (ws.getD (n - 15) 0) + ws.getD (n - 16) 0)

/-- Expansion of the 16 block words into the 64-entry message schedule. -/
def msgSchedule (block16 : List Nat) : List Nat :=
  (List.range 48).foldl (fun ws _ => ws ++ [nextW ws]) block16

/-- Processing of one 64-byte block, updating the hash state. -/
def processBlock (hs : Regs) (block : List Nat) : Regs :=
  let ws := msgSchedule (bytesToWords block)
  let kws := (k256.zip ws).map (fun kw => w32 (kw.1 + kw.2))
  let r := kws.foldl compressStep hs
  ⟨w32 (hs.a + r.a), w32 (hs.b + r.b), w32 (hs.c + r.c), w32 (hs.d + r.d),
   w32 (hs.e + r.e), w32 (hs.f + r.f), w32 (hs.g + r.g), w32 (hs.h + r.h)⟩

/-- Big-endian serialization of a 32-bit word into 4 bytes. -/
def word2bytes (w : Nat) : List Nat :=
  [(w >>> 24) &&& 255, (w >>> 16) &&& 255, (w >>> 8) &&& 255, w &&& 255]

/-- SHA-256 padding: a 0x80 byte, zeros up to 56 mod 64, then the 64-bit
big-endian bit length. -/
def padMsg (msg : List Nat) : List Nat :=
  let len := msg.length
  let bitLen := len * 8
  let zeros := (119 - len % 64) % 64
  msg ++ [128] ++ List.replicate zeros 0 ++
    [(bitLen >>> 56) &&& 255, (bitLen >>> 48) &&& 255, (bitLen >>> 40) &&& 255,
     (bitLen >>> 32) &&& 255, (bitLen >>> 24) &&& 255, (bitLen >>> 16) &&& 255,
     (bitLen >>> 8) &&& 255, bitLen &&& 255]

def chunksAux : Nat → List Nat → List (List Nat)
  | 0, _ => []
  | _, [] => []
  | fuel + 1, l => l.take 64 :: chunksAux fuel (l.drop 64)

/-- The byte list split into 64-byte blocks (fuel-based so the kernel reduces
it structurally). -/
def chunks64 (l : List Nat) : List (List Nat) := chunksAux l.length l

/-- SHA-256 of a byte sequence, as a list of 32 bytes. This embeds the
`crypto/sha256` digest used by `helpers.Hash`. -/
def sha256 (msg : List Nat) : List Nat :=
  let r := (chunks64 (padMsg msg)).foldl processBlock initRegs
  word2bytes r.a ++ word2bytes r.b ++ word2bytes r.c ++ word2bytes r.d ++
  word2bytes r.e ++ word2bytes r.f ++ word2bytes r.g ++ word2bytes r.h

/-- Lowercase hexadecimal digit of a nibble (as in Go `encoding/hex`). -/
def hexDigit (n : Nat) : Char :=
  if n < 10 then Char.ofNat (48 + n) else Char.ofNat (87 + n)

def hexByte (b : Nat) : List Char := [hexDigit ((b >>> 4) &&& 15), hexDigit (b &&& 15)]

/-- Lowercase hex encoding of a byte list (Go `hex.EncodeToString`). -/
def hexEncode (l : List Nat) : String := String.mk (l.map hexByte).flatten

/-- UTF-8 encoding of a single character. -/
def charUtf8 (c : Char) : List Nat :=
  let n := c.toNat
  if n < 128 then [n]
  else if n < 2048 then [192 ||| (n >>> 6), 128 ||| (n &&& 63)]
  else if n < 65536 then
    [224 ||| (n >>> 12), 128 ||| ((n >>> 6) &&& 63), 128 ||| (n &&& 63)]
  else
    [240 ||| (n >>> 18), 128 ||| ((n >>> 12) &&& 63), 128 ||| ((n >>> 6) &&& 63),
     128 ||| (n &&& 63)]

/-- The UTF-8 bytes of a string, modelling the Go conversion of a `string`
to `[]byte`. -/
def strBytes (s : String) : List Nat := (s.data.map charUtf8).flatten

/-- Decidable equality for `Except`, so concrete runs evaluate by `decide`. -/
instance {e a : Type} [DecidableEq e] [DecidableEq a] : DecidableEq (Except e a) :=
  fun x y =>
    match x, y with
    | .error u, .error v =>
      if h : u = v then .isTrue (by rw [h]) else .isFalse (by simp [h])
    | .error _, .ok _ => .isFalse (by simp)
    | .ok _, .error _ => .isFalse (by simp)
    | .ok u, .ok v =>
      if h : u = v then .isTrue (by rw [h]) else .isFalse (by simp [h])

/-- Splitting a character list at every occurrence of `sep`. -/
def charSplit (sep : Char) : List Char → List (List Char)
  | [] => [[]]
  | c :: rest =>
    let r := charSplit sep rest
    if c == sep then [] :: r
    else
      match r with
      | [] => [[c]]
      | h :: t => (c :: h) :: t

/-- Models Go `strings.Split` for the single-character separators the code
uses (`@`, `.` and the token separator `-`); defined structurally over the
character data so that the kernel evaluates it. -/
def strSplitOn (s sep : String) : List String :=
  match sep.data with
  | [c] => (charSplit c s.data).map String.mk
  | _ => [s]

/-- Models Go `strings.Join`. -/
def strJoin : List String → String → String
  | [], _ => ""
  | [x], _ => x
  | x :: rest, sep => x ++ sep ++ strJoin rest sep

/-- Models Go `strings.HasPrefix` (and the `String.startsWith` the driver
embedding needs), structurally over the character data. -/
def strStartsWith (s pre : String) : Bool := pre.data.isPrefixOf s.data

/-! ### Association-list maps

Go maps are embedded as association lists whose insert replaces an existing
key in place, so content and entry counts agree with map semantics on every
state the operations construct. -/

def mapLookup {V : Type} : List (String × V) → String → Option V
  | [], _ => none
  | (k', v) :: rest, k => if k' = k then some v else mapLookup rest k

def mapInsert {V : Type} : List (String × V) → String → V → List (String × V)
  | [], k, v => [(k, v)]
  | (k', v') :: rest, k, v =>
    if k' = k then (k, v) :: rest else (k', v') :: mapInsert rest k v

def mapErase {V : Type} (l : List (String × V)) (k : String) : List (String × V) :=
  l.filter (fun kv => kv.1 ≠ k)

/-! ### Identifier derivation helpers (src/helpers) -/

/-- `helpers.TokenSeparator` (src/helpers/consts.go). -/
def TokenSeparator : String := "-"

/-- `helpers.UserIdSize` (src/helpers/consts.go). -/
def UserIdSize : Nat := 4

/-- `helpers.SecretSize` (src/helpers/consts.go). -/
def SecretSize : Nat := 16

/-- `minDuration` (src/apps.go). -/
def minDuration : Int := 60

/-- `defaultUsersQuota` (src/apps.go). -/
def defaultUsersQuota : Int := 25

/-- Embeds `helpers.Hash` (src/helpers/helpers.go): the SHA-256 of the input,
truncated to `n` bytes when `0 < n < 32`, hex-encoded. The empty input returns
the empty string with a nil error; the Go error branch (`hash.Write`) can
never fire for SHA-256, so the error constructor is unreachable. `n` is
nonnegative at every call site (4 or 16), so it is a `Nat` here. -/
def Hash (input : String) (n : Nat) : Except String String :=
  if input = "" then .ok ""
  else
    let bHash := sha256 (strBytes input)
    let bTrunc := if 0 < n ∧ n < bHash.length then bHash.take n else bHash
    .ok (hexEncode bTrunc)

/-- The string `Hash` returns on success (it never fails); a convenience for
writing states and witnesses. -/
def hashOk (input : String) (n : Nat) : String := ((Hash input n).toOption).getD ""

/-- Embeds `helpers.EncodeUserToken` (src/helpers/helpers.go): the token is
`appId`, the user id (4-byte hash of the email) and the hex nonce joined by
the separator; returns the token and the user id. `bToken` is the byte
sequence `helpers.RandBytes(TokenSize)` produced, passed in explicitly. -/
def EncodeUserToken (appId email : String) (bToken : List Nat) :
    Except String (String × String) :=
  if appId = "" ∨ email = "" then .error "appId and email are required"
  else
    let hexToken := hexEncode bToken
    match Hash email UserIdSize with
    | .error e => .error e
    | .ok userId =>
      .ok (strJoin [appId, userId, hexToken] TokenSeparator, userId)

/-- Embeds `helpers.DecodeUserToken` (src/helpers/helpers.go): splits on the
separator and requires exactly three parts, returning the first two (app id
and user id). -/
def DecodeUserToken (token : String) : Except String (String × String) :=
  match strSplitOn token TokenSeparator with
  | [p0, p1, _] => .ok (p0, p1)
  | _ => .error "invalid token"

/-! ### Storage driver (src/unnamed/part_010, `db.TempDriver`)

The driver state; every operation below embeds the correspondingly named
`TempDriver` method. The in-memory maps are association lists, mutating
methods return the new state, and expirations are unix nanoseconds
(`expiration.UnixNano()`), as the driver stores them. -/

/-- `db.App` in the revision the core uses (fields as in src/unnamed/part_013
and src/apps.go): name, admin email, session duration, redirect URL and the
users quota. -/
structure App where
  name : String
  adminEmail : String
  sessionDuration : Int
  redirectURL : String
  usersQuota : Int
deriving DecidableEq

structure TempDriver where
  apps : List (String × App)
  secretToApp : List (String × String)
  tokens : List (String × Int)
deriving DecidableEq

def AppById (tdb : TempDriver) (appId : String) : Except String App :=
  match mapLookup tdb.apps appId with
  | some app => .ok app
  | none => .error "app not found"

def AppBySecret (tdb : TempDriver) (secret : String) : Except String (App × String) :=
  match mapLookup tdb.secretToApp secret with
  | none => .error "app not found"
  | some appId =>
    match mapLookup tdb.apps appId with
    | none => .error "app not found"
    | some app => .ok (app, appId)

def SetApp (tdb : TempDriver) (appId : String) (app : App) : TempDriver :=
  { tdb with apps := mapInsert tdb.apps appId app }

def DeleteApp (tdb : TempDriver) (appId : String) : TempDriver :=
  { tdb with apps := mapErase tdb.apps appId }

def ValidSecret (tdb : TempDriver) (secret appId : String) : Bool :=
  match mapLookup tdb.secretToApp secret with
  | none => false
  | some appIdFromSecret => appIdFromSecret == appId

def SetSecret (tdb : TempDriver) (secret appId : String) : TempDriver :=
  { tdb with secretToApp := mapInsert tdb.secretToApp secret appId }

def DeleteSecret (tdb : TempDriver) (secret : String) : TempDriver :=
  { tdb with secretToApp := mapErase tdb.secretToApp secret }

def TokenExpiration (tdb : TempDriver) (token : String) : Except String Int :=
  match mapLookup tdb.tokens token with
  | none => .error "token not found"
  | some exp => .ok exp

def SetToken (tdb : TempDriver) (token : String) (expiration : Int) : TempDriver :=
  { tdb with tokens := mapInsert tdb.tokens token expiration }

def DeleteToken (tdb : TempDriver) (token : String) : TempDriver :=
  { tdb with tokens := mapErase tdb.tokens token }

def DeleteTokensByPrefix (tdb : TempDriver) (pre : String) : TempDriver :=
  if pre = "" then tdb
  else { tdb with tokens := tdb.tokens.filter (fun kv => ! strStartsWith kv.1 pre) }

def DeleteExpiredTokens (tdb : TempDriver) (now : Int) : TempDriver :=
  { tdb with tokens := tdb.tokens.filter (fun kv => ! decide (now > kv.2)) }

def CountTokens (tdb : TempDriver) (pre : String) : Int :=
  if pre = "" then (tdb.tokens.length : Int)
  else ((tdb.tokens.filter (fun kv => strStartsWith kv.1 pre)).length : Int)

/-! ### Email delivery queue (src/email/emailqueue.go, src/email/errors.go) -/

structure Email where
  To : String
  Subject : String
  Body : String
deriving DecidableEq

inductive EmailErr where
  | invalidEmail
  | disallowedDomain
deriving DecidableEq

/-- Go regexp `\w`: ASCII letters, digits and underscore. -/
def isWordChar (c : Char) : Bool := c.isAlphanum || c == '_'

def isLocalChar (c : Char) : Bool := isWordChar c || c == '-' || c == '.'

def isDomainChar (c : Char) : Bool := isWordChar c || c == '-'

/-- Embeds the Go regexp `emailRgx`, anchored both ends: a nonempty local
part over word characters, dash and dot, one `@`, then one or more
dot-terminated labels over word characters and dash followed by a final
label of length at least 2. Neither character class contains `@` or `.`
(dots inside the domain are only the literal separators), so a match
decomposes uniquely into these split-based conditions. -/
def emailRgxMatch (s : String) : Bool :=
  match strSplitOn s "@" with
  | [localPart, domain] =>
    !(localPart == "") && localPart.data.all isLocalChar &&
    (let labels := strSplitOn domain "."
     decide (2 ≤ labels.length) &&
     labels.all (fun l => !(l == "") && l.data.all isDomainChar) &&
     decide (2 ≤ (labels.getLastD "").data.length))
  | _ => false

/-- Embeds `email.CheckEmail` (src/email/errors.go): with an empty disallowed
list everything passes; otherwise the address must split into exactly two
parts around `@` and its domain must not be listed. -/
def CheckEmail (disallowedDomains : List String) (email : String) : Bool :=
  if disallowedDomains.isEmpty then true
  else
    match strSplitOn email "@" with
    | [_, domain] => !disallowedDomains.contains domain
    | _ => false

/-- Embeds `EmailQueue.Allowed`: the regexp check and the disallowed-domain
check. -/
def Allowed (disallowedDomains : List String) (address : String) : Bool :=
  emailRgxMatch address && CheckEmail disallowedDomains address

/-- Embeds `EmailQueue.Push`: the recipient must be nonempty and match the
regexp and the subject and body must be nonempty, else `ErrInvalidEmail`;
the recipient must be allowed, else `ErrDisallowedDomain`; otherwise the
message is appended to the tail. The pair is (error, new items). -/
def Push (disallowedDomains : List String) (items : List Email) (e : Email) :
    Option EmailErr × List Email :=
  if e.To == "" || !emailRgxMatch e.To || e.Subject == "" || e.Body == "" then
    (some .invalidEmail, items)
  else if !Allowed disallowedDomains e.To then
    (some .disallowedDomain, items)
  else
    (none, items ++ [e])

/-- Embeds `EmailQueue.Pop`: removes and returns the head of the queue. -/
def Pop (items : List Email) : Option Email × List Email :=
  match items with
  | [] => (none, [])
  | e :: rest => (some e, rest)

/-- Embeds one iteration of the worker loop in `EmailQueue.Start`
(src/email/emailqueue.go lines 83-105): `Pop` the head, and if it is present
attempt `Send` on it; `sendOk` models the outcome of the network send. On a
send error the loop only logs; on success the code calls `Pop` once more.
Returns the queue after the iteration and the message whose delivery was
attempted. -/
def startIteration (sendOk : Email → Bool) (items : List Email) :
    List Email × Option Email :=
  match Pop items with
  | (none, rest) => (rest, none)
  | (some e, rest) => if sendOk e then ((Pop rest).2, some e) else (rest, some e)

/-! ### Service layer (src/unnamed/part_003, src/apps.go, src/unnamed/part_002) -/

/-- Embeds `Service.validSecret` (src/apps.go): hash the raw secret to 16
bytes and ask the driver whether it maps to the app id. -/
def validSecret (tdb : TempDriver) (appId rawSecret : String) : Bool :=
  match Hash rawSecret SecretSize with
  | .error _ => false
  | .ok secret => ValidSecret tdb secret appId

/-- Models the link construction at the end of `Service.magicLink`
(src/unnamed/part_003 lines 72-93), which uses the external `net/url`
package: for a base URL without query or fragment the Go code produces the
base with the token appended as the only query parameter. No claim in this
development depends on the link text. -/
def buildLink (base token : String) : String := base ++ "?token=" ++ token

/-- Embeds `Service.magicLink` (src/unnamed/part_003): checks secret and
email nonempty, resolves the app by the hashed secret, enforces the users
quota against the count of stored tokens prefixed by the app id, encodes the
token, computes the expiration from the override duration (seconds) or the
app session duration, deletes tokens prefixed by `appId-userId`, stores the
new token and returns (link, token, app name). `bToken` is the random nonce
and `now` the current unix-nanosecond time. -/
def magicLink (tdb : TempDriver) (rawSecret email redirectURL : String) (duration : Nat)
    (bToken : List Nat) (now : Int) :
    Except String (String × String × String) × TempDriver :=
  if rawSecret = "" ∨ email = "" then (.error "secret and email are required", tdb)
  else
    match Hash rawSecret SecretSize with
    | .error e => (.error e, tdb)
    | .ok appSecretHash =>
      match AppBySecret tdb appSecretHash with
      | .error e => (.error e, tdb)
      | .ok (app, appId) =>
        let numberOfAppTokens := CountTokens tdb appId
        if numberOfAppTokens ≥ app.usersQuota then (.error "users quota reached", tdb)
        else
          match EncodeUserToken appId email bToken with
          | .error e => (.error e, tdb)
          | .ok (token, userId) =>
            let sessionDuration : Int :=
              if duration > 0 then (duration : Int) else app.sessionDuration
            let expiration := now + sessionDuration * 1000000000
            let tokenPre := strJoin [appId, userId] TokenSeparator
            let tdb1 := DeleteTokensByPrefix tdb tokenPre
            let tdb2 := SetToken tdb1 token expiration
            let baseRawURL := if redirectURL ≠ "" then redirectURL else app.redirectURL
            (.ok (buildLink baseRawURL token, token, app.name), tdb2)

/-- Embeds `Service.validUserToken` (src/unnamed/part_003 lines 102-129):
fails closed on empty inputs, undecodable tokens, an invalid secret for the
decoded app id or a missing stored expiration; deletes the token and fails
when `now` is strictly after the expiration; otherwise succeeds. -/
def validUserToken (tdb : TempDriver) (token rawSecret : String) (now : Int) :
    Bool × TempDriver :=
  if token = "" ∨ rawSecret = "" then (false, tdb)
  else
    match DecodeUserToken token with
    | .error _ => (false, tdb)
    | .ok (appId, _) =>
      if !validSecret tdb appId rawSecret then (false, tdb)
      else
        match TokenExpiration tdb token with
        | .error _ => (false, tdb)
        | .ok expiration =>
          if now > expiration then (false, DeleteToken tdb token)
          else (true, tdb)

/-- Embeds `Service.validAdminToken` (src/unnamed/part_003 lines 135-166): as
`validUserToken`, but additionally requires the decoded user id to equal the
app id (the only discriminator of admin tokens) and returns the app id on
success. -/
def validAdminToken (tdb : TempDriver) (token rawSecret : String) (now : Int) :
    (String × Bool) × TempDriver :=
  if token = "" ∨ rawSecret = "" then (("", false), tdb)
  else
    match DecodeUserToken token with
    | .error _ => (("", false), tdb)
    | .ok (appId, userId) =>
      if userId ≠ appId then (("", false), tdb)
      else if !validSecret tdb appId rawSecret then (("", false), tdb)
      else
        match TokenExpiration tdb token with
        | .error _ => (("", false), tdb)
        | .ok expiration =>
          if now > expiration then (("", false), DeleteToken tdb token)
          else ((appId, true), tdb)

/-- Embeds `appSecret` (src/apps.go): hex-encode the 16 random bytes
(passed in as `bSecret`) and hash the result; returns the secret and its
hash. -/
def appSecret (bSecret : List Nat) : Except String (String × String) :=
  let secret := hexEncode bSecret
  match Hash secret SecretSize with
  | .error e => .error e
  | .ok hSecret => .ok (secret, hSecret)

/-- Embeds `generateApp` (src/apps.go): rejects an empty email, hashes the
email to 4 bytes for the app id and generates the secret pair. -/
def generateApp (email : String) (bSecret : List Nat) :
    Except String (String × String × String) :=
  if email = "" then .error "email is required"
  else
    match Hash email 4 with
    | .error e => .error e
    | .ok appId =>
      match appSecret bSecret with
      | .error e => .error e
      | .ok (secret, hSecret) => .ok (appId, secret, hSecret)

/-- Embeds `Service.authApp` (src/apps.go): validates the inputs and the
duration floor, builds the app record with the default users quota,
generates the app id and secret from the email, stores the record and the
secret-hash-to-app-id mapping, and returns the app id and plaintext
secret. -/
def authApp (tdb : TempDriver) (name email redirectURL : String) (duration : Int)
    (bSecret : List Nat) : Except String (String × String) × TempDriver :=
  if name = "" ∨ email = "" ∨ redirectURL = "" then
    (.error "name, email, and redirectURL are required", tdb)
  else if duration < minDuration then
    (.error "duration must be at least 60 seconds", tdb)
  else
    let appData : App := ⟨name, email, duration, redirectURL, defaultUsersQuota⟩
    match generateApp email bSecret with
    | .error e => (.error e, tdb)
    | .ok (appId, secret, hSecret) =>
      let tdb1 := SetApp tdb appId appData
      let tdb2 := SetSecret tdb1 hSecret appId
      (.ok (appId, secret), tdb2)

/-- The view `Service.appMetadata` returns (fields of `AppData`,
src/unnamed/part_004). -/
structure AppData where
  name : String
  email : String
  redirectURL : String
  duration : Int
  usersQuota : Int
  currentUsers : Int
deriving DecidableEq

/-- Embeds `Service.appMetadata` (src/apps.go): fetches the record and
augments it with the count of stored tokens prefixed by the app id (count
errors are ignored, and the in-memory driver cannot fail). -/
def appMetadata (tdb : TempDriver) (appId : String) : Except String AppData :=
  match AppById tdb appId with
  | .error e => .error e
  | .ok dbApp =>
    .ok ⟨dbApp.name, dbApp.adminEmail, dbApp.redirectURL, dbApp.sessionDuration,
         dbApp.usersQuota, CountTokens tdb appId⟩

/-- Embeds `Service.removeApp` (src/apps.go lines 113-132): rejects an empty
app id, deletes every token prefixed by the app id, then deletes the app
record. The secret mapping is not touched. -/
def removeApp (tdb : TempDriver) (appId : String) : Except String Unit × TempDriver :=
  if appId = "" then (.error "app id is required", tdb)
  else
    let tdb1 := DeleteTokensByPrefix tdb appId
    (.ok (), DeleteApp tdb1 appId)

/-- The response outcomes of an HTTP handler that matter to the storage and
queue state. -/
inductive HandlerResult where
  | okResp
  | badRequest (msg : String)
  | serverError (msg : String)
deriving DecidableEq

/-- Embeds the storage and queue flow of `Service.appTokenHandler`
(src/unnamed/part_002 lines 122-176): check the admin email against the
disallowed list, register the app (`authApp`), render the notification email
(`emailBody` is the result of the external template rendering), `Push` it to
the queue, and on a push error roll back with `removeApp` before responding
with an error. -/
def appTokenHandlerFlow (tdb : TempDriver) (disallowedDomains : List String)
    (q : List Email) (name email redirectURL : String) (duration : Int)
    (bSecret : List Nat) (emailBody : Except String String) :
    HandlerResult × TempDriver × List Email :=
  if !Allowed disallowedDomains email then (.badRequest "disallowed domain", tdb, q)
  else
    match authApp tdb name email redirectURL duration bSecret with
    | (.error _, tdb1) => (.serverError "error generating token", tdb1, q)
    | (.ok (appId, _), tdb1) =>
      match emailBody with
      | .error _ => (.serverError "error parsing email template", tdb1, q)
      | .ok body =>
        let subject := "Your app '" ++ name ++ "' is ready! 🎉"
        match Push disallowedDomains q ⟨email, subject, body⟩ with
        | (some _, q') =>
          let (_, tdb2) := removeApp tdb1 appId
          (.serverError "error sending email", tdb2, q')
        | (none, q') => (.okResp, tdb1, q')

/-! ### Shared lemmas about the embedding -/

/-- Sanity check of the SHA-256 embedding against the standard test vector. -/
theorem sha256_abc_vector :
    hexEncode (sha256 (strBytes "abc")) =
      "ba7816bf8f01cfea414140de5dae2223b00361a396177a9cb410ff61f20015ad" := by decide

/-- Sanity check of the SHA-256 embedding on the empty input. -/
theorem sha256_empty_vector :
    hexEncode (sha256 (strBytes "")) =
      "e3b0c44298fc1c149afbf4c8996fb92427ae41e4649b934ca495991b7852b855" := by decide

theorem mapLookup_insert_self {V : Type} (l : List (String × V)) (k : String) (v : V) :
    mapLookup (mapInsert l k v) k = some v := by
  induction l with
  | nil => simp [mapInsert, mapLookup]
  | cons hd tl ih =>
    obtain ⟨a, b⟩ := hd
    by_cases h : a = k
    · simp [mapInsert, h, mapLookup]
    · simp [mapInsert, h, mapLookup, ih]

theorem mapLookup_insert_ne {V : Type} (l : List (String × V)) (k k' : String) (v : V)
    (h : k' ≠ k) : mapLookup (mapInsert l k v) k' = mapLookup l k' := by
  have hkk : ¬ (k = k') := fun he => h he.symm
  induction l with
  | nil => simp [mapInsert, mapLookup, hkk]
  | cons hd tl ih =>
    obtain ⟨a, b⟩ := hd
    by_cases ha : a = k
    · subst ha
      simp [mapInsert, mapLookup, hkk]
    · simp [mapInsert, ha, mapLookup, ih]

theorem mapLookup_mem {V : Type} (l : List (String × V)) (k : String) (v : V)
    (h : mapLookup l k = some v) : (k, v) ∈ l := by
  induction l with
  | nil => simp [mapLookup] at h
  | cons hd tl ih =>
    obtain ⟨a, b⟩ := hd
    by_cases ha : a = k
    · subst ha
      simp [mapLookup] at h
      subst h
      exact List.mem_cons_self _ _
    · simp [mapLookup, ha] at h
      exact List.mem_cons_of_mem _ (ih h)

theorem mapLookup_filter_none {V : Type} (l : List (String × V)) (k : String)
    (p : String × V → Bool) (h : ∀ v, p (k, v) = false) :
    mapLookup (l.filter p) k = none := by
  induction l with
  | nil => simp [mapLookup]
  | cons hd tl ih =>
    obtain ⟨a, b⟩ := hd
    by_cases hp : p (a, b)
    · have hk : ¬ (a = k) := by
        intro he
        subst he
        rw [h b] at hp
        exact Bool.false_ne_true hp
      simp [List.filter_cons, hp, mapLookup, hk, ih]
    · simp [List.filter_cons, hp, ih]

/-- `Hash` never returns an error: it always yields `hashOk`. -/
theorem Hash_eq_ok (s : String) (n : Nat) : Hash s n = Except.ok (hashOk s n) := by
  unfold hashOk Hash
  by_cases h : s = ""
  · simp [h, Except.toOption]
  · simp [h, Except.toOption]

/-- The SHA-256 digest always has 32 bytes. -/
theorem sha256_length (msg : List Nat) : (sha256 msg).length = 32 := by
  simp [sha256, word2bytes]

/-- Hex encoding of a nonempty byte list is a nonempty string. -/
theorem hexEncode_ne_empty (l : List Nat) (h : l ≠ []) : hexEncode l ≠ "" := by
  cases l with
  | nil => exact absurd rfl h
  | cons b rest =>
    intro he
    have h2 : (List.map hexByte (b :: rest)).flatten = ("" : String).data :=
      congrArg String.data he
    simp [hexByte] at h2

/-- Inversion of a successful `AppBySecret`: the secret maps to the app id
and the app id maps to the record. -/
theorem AppBySecret_ok (tdb : TempDriver) (sec : String) (app : App) (appId : String)
    (h : AppBySecret tdb sec = .ok (app, appId)) :
    mapLookup tdb.secretToApp sec = some appId ∧ mapLookup tdb.apps appId = some app := by
  unfold AppBySecret at h
  split at h
  · simp at h
  · rename_i v hv
    split at h
    · simp at h
    · rename_i a ha2
      simp at h
      obtain ⟨hap, hid⟩ := h
      subst hap
      subst hid
      exact ⟨hv, ha2⟩

/-- A secret whose 16-byte hash maps to the app id validates. -/
theorem validSecret_of_mapLookup (tdb : TempDriver) (appId rawSecret : String)
    (h : mapLookup tdb.secretToApp (hashOk rawSecret SecretSize) = some appId) :
    validSecret tdb appId rawSecret = true := by
  simp [validSecret, Hash_eq_ok, ValidSecret, h]

/-- Membership in an insert comes from the inserted key or the original
list. -/
theorem mem_mapInsert {V : Type} (l : List (String × V)) (k t : String) (v e : V)
    (h : (t, e) ∈ mapInsert l k v) : t = k ∨ (t, e) ∈ l := by
  induction l with
  | nil =>
    simp [mapInsert] at h
    exact Or.inl h.1
  | cons hd tl ih =>
    obtain ⟨a, b⟩ := hd
    by_cases ha : a = k
    · simp [mapInsert, ha] at h
      rcases h with h | h
      · exact Or.inl h.1
      · exact Or.inr (List.mem_cons_of_mem _ h)
    · simp [mapInsert, ha] at h
      rcases h with h | h
      · exact Or.inr (by simp [h])
      · rcases ih h with h' | h'
        · exact Or.inl h'
        · exact Or.inr (List.mem_cons_of_mem _ h')

/-- Erasing a present key whose entries satisfy the filter strictly decreases
the filtered length. -/
theorem tokens_filter_erase_lt (l : List (String × Int)) (tok : String) (exp : Int)
    (p : String × Int → Bool)
    (hmem : (tok, exp) ∈ l) (hp : ∀ e, p (tok, e) = true) :
    ((mapErase l tok).filter p).length < (l.filter p).length := by
  induction l with
  | nil => simp at hmem
  | cons hd tl ih =>
    obtain ⟨a, b⟩ := hd
    by_cases ha : a = tok
    · subst ha
      have hsub : List.Sublist ((mapErase tl a).filter p) (tl.filter p) := by
        unfold mapErase
        exact (List.filter_sublist tl).filter p
      have hle : ((mapErase tl a).filter p).length ≤ (tl.filter p).length :=
        hsub.length_le
      have hcons : ((a, b) :: tl).filter p = (a, b) :: tl.filter p := by
        simp [List.filter_cons, hp b]
      have hskip : mapErase ((a, b) :: tl) a = mapErase tl a := by
        simp [mapErase, List.filter_cons]
      rw [hskip, hcons]
      simp only [List.length_cons]
      omega
    · have hmem' : (tok, exp) ∈ tl := by
        rcases List.mem_cons.mp hmem with h | h
        · exact absurd (congrArg Prod.fst h).symm ha
        · exact h
      have hkeep : mapErase ((a, b) :: tl) tok = (a, b) :: mapErase tl tok := by
        simp [mapErase, List.filter_cons, ha]
      rw [hkeep]
      by_cases hpa : p (a, b)
      · simp only [List.filter_cons, hpa, if_true, List.length_cons]
        have := ih hmem'
        omega
      · simp only [List.filter_cons, hpa, if_false]
        simp only [Bool.false_eq_true, if_false]
        exact ih hmem'

/-- The successful path of `magicLink`: with nonempty inputs, a resolvable
secret and free quota, it deletes the tokens prefixed by `appId-userId`,
stores the new token with the computed expiration, and returns the link,
token and app name. -/
theorem magicLink_success
    (tdb : TempDriver) (rawSecret email redirectURL : String) (duration : Nat)
    (bToken : List Nat) (now : Int) (app : App) (appId : String)
    (hs : rawSecret ≠ "") (he : email ≠ "") (ha : appId ≠ "")
    (hfind : AppBySecret tdb (hashOk rawSecret SecretSize) = .ok (app, appId))
    (hquota : CountTokens tdb appId < app.usersQuota) :
    magicLink tdb rawSecret email redirectURL duration bToken now =
      (.ok (buildLink (if redirectURL ≠ "" then redirectURL else app.redirectURL)
              (strJoin [appId, hashOk email UserIdSize, hexEncode bToken] TokenSeparator),
            strJoin [appId, hashOk email UserIdSize, hexEncode bToken] TokenSeparator,
            app.name),
       SetToken
         (DeleteTokensByPrefix tdb (strJoin [appId, hashOk email UserIdSize] TokenSeparator))
         (strJoin [appId, hashOk email UserIdSize, hexEncode bToken] TokenSeparator)
         (now + (if duration > 0 then (duration : Int) else app.sessionDuration) * 1000000000)) := by
  unfold magicLink
  rw [if_neg (by push_neg; exact ⟨hs, he⟩)]
  simp only [Hash_eq_ok, hfind]
  rw [if_neg (not_le.mpr hquota)]
  unfold EncodeUserToken
  rw [if_neg (by push_neg; exact ⟨ha, he⟩)]
  simp only [Hash_eq_ok]

/-- Hashing a nonempty input yields a nonempty hex string. -/
theorem hashOk_ne_empty (s : String) (n : Nat) (hs : s ≠ "") : hashOk s n ≠ "" := by
  unfold hashOk Hash
  rw [if_neg hs]
  simp only [Except.toOption, Option.getD_some]
  apply hexEncode_ne_empty
  by_cases hn : 0 < n ∧ n < (sha256 (strBytes s)).length
  · rw [if_pos hn]
    intro ht
    rcases List.take_eq_nil_iff.mp ht with h0 | hnil
    · omega
    · have h32 := sha256_length (strBytes s)
      rw [hnil] at h32
      simp at h32
  · rw [if_neg hn]
    intro hnil
    have h32 := sha256_length (strBytes s)
    rw [hnil] at h32
    simp at h32

/-- `CountTokens` only reads the token map. -/
theorem CountTokens_congr (t1 t2 : TempDriver) (p : String) (h : t1.tokens = t2.tokens) :
    CountTokens t1 p = CountTokens t2 p := by
  unfold CountTokens
  rw [h]

/-- The successful path of `authApp`: with nonempty inputs and an admissible
duration it registers the app record under the hashed email and the secret
hash mapping, and returns the app id and plaintext secret. -/
theorem authApp_success (tdb : TempDriver) (name email redirectURL : String)
    (duration : Int) (bSecret : List Nat)
    (hn : name ≠ "") (he : email ≠ "") (hr : redirectURL ≠ "") (hd : duration ≥ 60) :
    authApp tdb name email redirectURL duration bSecret =
      (.ok (hashOk email 4, hexEncode bSecret),
       SetSecret (SetApp tdb (hashOk email 4)
           ⟨name, email, duration, redirectURL, defaultUsersQuota⟩)
         (hashOk (hexEncode bSecret) SecretSize) (hashOk email 4)) := by
  unfold authApp
  rw [if_neg (by push_neg; exact ⟨hn, he, hr⟩)]
  rw [if_neg (by unfold minDuration; omega)]
  unfold generateApp
  rw [if_neg he]
  simp only [Hash_eq_ok]
  unfold appSecret
  simp only [Hash_eq_ok]

/-- Looking up an erased key yields nothing. -/
theorem mapLookup_erase_self {V : Type} (l : List (String × V)) (k : String) :
    mapLookup (mapErase l k) k = none := by
  apply mapLookup_filter_none
  intro v
  simp [mapErase]

/-- With a nonempty prefix, `DeleteTokensByPrefix` filters the token map. -/
theorem DeleteTokensByPrefix_tokens (tdb : TempDriver) (pre : String) (h : pre ≠ "") :
    (DeleteTokensByPrefix tdb pre).tokens =
      tdb.tokens.filter (fun kv => ! strStartsWith kv.1 pre) := by
  unfold DeleteTokensByPrefix
  rw [if_neg h]

/-- `DeleteTokensByPrefix` leaves the app map unchanged. -/
theorem DeleteTokensByPrefix_apps (tdb : TempDriver) (pre : String) :
    (DeleteTokensByPrefix tdb pre).apps = tdb.apps := by
  unfold DeleteTokensByPrefix
  split <;> rfl

/-- `DeleteTokensByPrefix` leaves the secret map unchanged. -/
theorem DeleteTokensByPrefix_secretToApp (tdb : TempDriver) (pre : String) :
    (DeleteTokensByPrefix tdb pre).secretToApp = tdb.secretToApp := by
  unfold DeleteTokensByPrefix
  split <;> rfl

/-- Filtering with a predicate after keeping only its complement yields
nothing. -/
theorem filter_after_filter_not {α : Type} (l : List α) (p : α → Bool) :
    (l.filter (fun x => ! p x)).filter p = [] := by
  induction l with
  | nil => rfl
  | cons hd tl ih =>
    by_cases hp : p hd
    · simp [List.filter_cons, hp, ih]
    · simp [List.filter_cons, hp, ih]

/-! ### The claims -/

/-- C1: the spec claims every message appended to the delivery queue is
consumed exactly once — one worker iteration removes exactly the head, and a
successful delivery removes no additional message. The code violates this:
in `EmailQueue.Start` the loop pops the head, attempts the send, and on
success calls `Pop` a second time, so with two queued messages one
successful iteration empties the queue although only the first message was
ever attempted. This theorem evaluates the worker iteration at that failing
input. -/
theorem c1_worker_iteration_consumes_two_on_success :
    startIteration (fun _ => true)
        [⟨"a@x.com", "s1", "b1"⟩, ⟨"b@x.com", "s2", "b2"⟩] =
      ([], some ⟨"a@x.com", "s1", "b1"⟩) := by decide

/-- C7: `validAdminToken` on a token whose decoded user id differs from its
decoded app id (a user token) returns the empty app id and false for every
secret, every state and every instant, leaving the state unchanged. -/
theorem c7_admin_validation_rejects_user_tokens
    (tdb : TempDriver) (token rawSecret : String) (now : Int)
    (appId userId : String)
    (hdec : DecodeUserToken token = .ok (appId, userId))
    (hne : userId ≠ appId) :
    validAdminToken tdb token rawSecret now = (("", false), tdb) := by
  unfold validAdminToken
  by_cases he : token = "" ∨ rawSecret = ""
  · rw [if_pos he]
  · rw [if_neg he]
    simp only [hdec]
    rw [if_pos hne]

/-- Witness for C7 at a concrete user token and state. -/
theorem c7_admin_validation_rejects_user_tokens_witness :
    DecodeUserToken "aaaa-bbbb-cccc" = .ok ("aaaa", "bbbb") ∧
    validAdminToken ⟨[], [], []⟩ "aaaa-bbbb-cccc" "some-secret" 0 = (("", false), ⟨[], [], []⟩) :=
  ⟨by decide,
   c7_admin_validation_rejects_user_tokens ⟨[], [], []⟩ "aaaa-bbbb-cccc" "some-secret" 0
     "aaaa" "bbbb" (by decide) (by decide)⟩

/-- C8 counterexample: a message with a syntactically valid recipient whose
domain is not in the (empty) disallowed list, but whose subject is empty, is
rejected by `Push` with the invalid-email error and not appended, although
the claim says every message passing the recipient checks is appended. -/
theorem c8_push_counterexample :
    Push [] [] ⟨"user@example.com", "", "body"⟩ = (some .invalidEmail, []) ∧
    emailRgxMatch "user@example.com" = true ∧
    CheckEmail [] "user@example.com" = true := by decide

/-- C8 (amended): `Push` rejects with the invalid-email error any message
whose recipient is empty or fails the syntactic check or whose subject or
body is empty; rejects with the disallowed-domain error any other message
whose recipient is not allowed by the disallowed-domain list; and appends
every remaining message at the tail of the queue with no error. Both
rejections leave the queue unchanged. -/
theorem c8_push_amended (dis : List String) (items : List Email) (e : Email) :
    ((e.To = "" ∨ emailRgxMatch e.To = false ∨ e.Subject = "" ∨ e.Body = "") →
        Push dis items e = (some .invalidEmail, items)) ∧
    (e.To ≠ "" → emailRgxMatch e.To = true → e.Subject ≠ "" → e.Body ≠ "" →
      CheckEmail dis e.To = false →
        Push dis items e = (some .disallowedDomain, items)) ∧
    (e.To ≠ "" → emailRgxMatch e.To = true → e.Subject ≠ "" → e.Body ≠ "" →
      CheckEmail dis e.To = true →
        Push dis items e = (none, items ++ [e])) := by
  refine ⟨?_, ?_, ?_⟩
  · intro h
    rcases h with h | h | h | h <;> simp [Push, h]
  · intro h1 h2 h3 h4 h5
    simp [Push, Allowed, h1, h2, h3, h4, h5]
  · intro h1 h2 h3 h4 h5
    simp [Push, Allowed, h1, h2, h3, h4, h5]

/-- Witness for C8: each branch of the amended claim at a concrete
message. -/
theorem c8_push_amended_witness :
    Push [] [] ⟨"", "subj", "body"⟩ = (some .invalidEmail, []) ∧
    Push ["spam.com"] [] ⟨"u@spam.com", "subj", "body"⟩ = (some .disallowedDomain, []) ∧
    Push [] [] ⟨"u@ok.com", "subj", "body"⟩ = (none, [⟨"u@ok.com", "subj", "body"⟩]) :=
  ⟨(c8_push_amended [] [] ⟨"", "subj", "body"⟩).1 (Or.inl rfl),
   (c8_push_amended ["spam.com"] [] ⟨"u@spam.com", "subj", "body"⟩).2.1
     (by decide) (by decide) (by decide) (by decide) (by decide),
   (c8_push_amended [] [] ⟨"u@ok.com", "subj", "body"⟩).2.2
     (by decide) (by decide) (by decide) (by decide) (by decide)⟩

/-- C9 counterexample: `Hash` (the deriveId of the spec, src/helpers) on the
empty input returns the empty string with a nil error — it does not yield an
error as the claim states. -/
theorem c9_hash_empty_counterexample : Hash "" 4 = Except.ok "" := rfl

/-- C9 (amended): `Hash` applied to the empty input returns the empty string
with no error rather than an error. The outcome is still distinguished from
the hash of the empty string, because the hash of any nonempty input is a
nonempty hex string, and the identifier-deriving call sites (`generateApp`
for application ids, `EncodeUserToken` for user ids) reject empty input with
an error of their own, so an unset field can never collide with a derived
identifier. -/
theorem c9_empty_input_amended (s appId : String) (n : Nat) (b : List Nat) (hs : s ≠ "") :
    Hash "" n = Except.ok "" ∧
    generateApp "" b = Except.error "email is required" ∧
    EncodeUserToken appId "" b = Except.error "appId and email are required" ∧
    Hash s n = Except.ok (hashOk s n) ∧ hashOk s n ≠ "" := by
  refine ⟨?_, rfl, ?_, Hash_eq_ok s n, hashOk_ne_empty s n hs⟩
  · unfold Hash
    rw [if_pos rfl]
  · unfold EncodeUserToken
    rw [if_pos (Or.inr rfl)]

/-- Witness for C9 at a concrete nonempty input. -/
theorem c9_empty_input_amended_witness :
    Hash "" 4 = Except.ok "" ∧
    generateApp "" [1, 2, 3] = Except.error "email is required" ∧
    EncodeUserToken "aaaa" "" [1, 2, 3] = Except.error "appId and email are required" ∧
    Hash "user@x.com" 4 = Except.ok (hashOk "user@x.com" 4) ∧ hashOk "user@x.com" 4 ≠ "" :=
  c9_empty_input_amended "user@x.com" "aaaa" 4 [1, 2, 3] (by decide)

/-- C6: for valid inputs (nonempty name, email, redirect URL and duration at
least 60), `authApp` (Register) followed by `appMetadata` (Metadata) on the
returned app id yields the same name, redirect URL and duration that were
supplied, with the default users quota and zero current users when the state
holds no token prefixed by the new app id. -/
theorem c6_register_then_metadata
    (tdb : TempDriver) (name email redirectURL : String) (duration : Int)
    (bSecret : List Nat)
    (hn : name ≠ "") (he : email ≠ "") (hr : redirectURL ≠ "") (hd : duration ≥ 60)
    (htok : CountTokens tdb (hashOk email 4) = 0) :
    (authApp tdb name email redirectURL duration bSecret).1 =
      .ok (hashOk email 4, hexEncode bSecret) ∧
    appMetadata (authApp tdb name email redirectURL duration bSecret).2 (hashOk email 4) =
      .ok ⟨name, email, redirectURL, duration, defaultUsersQuota, 0⟩ := by
  rw [authApp_success tdb name email redirectURL duration bSecret hn he hr hd]
  refine ⟨rfl, ?_⟩
  unfold appMetadata AppById
  have happs :
      (SetSecret (SetApp tdb (hashOk email 4)
          ⟨name, email, duration, redirectURL, defaultUsersQuota⟩)
        (hashOk (hexEncode bSecret) SecretSize) (hashOk email 4)).apps =
      mapInsert tdb.apps (hashOk email 4)
        ⟨name, email, duration, redirectURL, defaultUsersQuota⟩ := rfl
  rw [happs, mapLookup_insert_self]
  have hcnt :
      CountTokens (SetSecret (SetApp tdb (hashOk email 4)
          ⟨name, email, duration, redirectURL, defaultUsersQuota⟩)
        (hashOk (hexEncode bSecret) SecretSize) (hashOk email 4)) (hashOk email 4) =
      CountTokens tdb (hashOk email 4) := CountTokens_congr _ _ _ rfl
  simp only [hcnt, htok]

/-- Witness for C6: a concrete registration on the empty state. -/
theorem c6_register_then_metadata_witness :
    (authApp ⟨[], [], []⟩ "My App" "admin@x.com" "https://x.com/cb" 3600
        [0, 1, 2, 3, 4, 5, 6, 7, 8, 9, 10, 11, 12, 13, 14, 15]).1 =
      .ok (hashOk "admin@x.com" 4,
           hexEncode [0, 1, 2, 3, 4, 5, 6, 7, 8, 9, 10, 11, 12, 13, 14, 15]) ∧
    appMetadata (authApp ⟨[], [], []⟩ "My App" "admin@x.com" "https://x.com/cb" 3600
        [0, 1, 2, 3, 4, 5, 6, 7, 8, 9, 10, 11, 12, 13, 14, 15]).2 (hashOk "admin@x.com" 4) =
      .ok ⟨"My App", "admin@x.com", "https://x.com/cb", 3600, defaultUsersQuota, 0⟩ :=
  c6_register_then_metadata ⟨[], [], []⟩ "My App" "admin@x.com" "https://x.com/cb" 3600
    [0, 1, 2, 3, 4, 5, 6, 7, 8, 9, 10, 11, 12, 13, 14, 15]
    (by decide) (by decide) (by decide) (by decide) (by decide)

/-- C4: `validUserToken` fails closed on empty token or secret and on
unparseable tokens; for a stored token with a validating secret it returns
true at every instant up to the expiration and, strictly after the
expiration, returns false and deletes the stored token; and it returns false
for every secret whose hash is not the one the state maps to the app id
(every secret other than the issuing application's). -/
theorem c4_validate_user_token
    (tdb : TempDriver) (token rawSecret : String) (now : Int) :
    validUserToken tdb "" rawSecret now = (false, tdb) ∧
    validUserToken tdb token "" now = (false, tdb) ∧
    (∀ e, DecodeUserToken token = .error e →
      (validUserToken tdb token rawSecret now).1 = false) ∧
    (∀ appId userId exp,
      DecodeUserToken token = .ok (appId, userId) →
      rawSecret ≠ "" →
      validSecret tdb appId rawSecret = true →
      mapLookup tdb.tokens token = some exp →
      ((now ≤ exp → validUserToken tdb token rawSecret now = (true, tdb)) ∧
       (now > exp → validUserToken tdb token rawSecret now = (false, DeleteToken tdb token)))) ∧
    (∀ appId userId correctSecret,
      DecodeUserToken token = .ok (appId, userId) →
      (∀ k v, (k, v) ∈ tdb.secretToApp → v = appId → k = hashOk correctSecret SecretSize) →
      hashOk rawSecret SecretSize ≠ hashOk correctSecret SecretSize →
      (validUserToken tdb token rawSecret now).1 = false) := by
  refine ⟨by simp [validUserToken], by simp [validUserToken], ?_, ?_, ?_⟩
  · intro e hdec
    by_cases hts : token = "" ∨ rawSecret = ""
    · unfold validUserToken
      rw [if_pos hts]
    · unfold validUserToken
      rw [if_neg hts]
      simp only [hdec]
  · intro appId userId exp hdec hrs hvalid hexp
    have htok : token ≠ "" := by
      intro h
      subst h
      have hrfl : DecodeUserToken "" = Except.error "invalid token" := rfl
      rw [hrfl] at hdec
      exact Except.noConfusion hdec
    have hte : TokenExpiration tdb token = .ok exp := by
      unfold TokenExpiration
      rw [hexp]
    constructor
    · intro hle
      unfold validUserToken
      rw [if_neg (by push_neg; exact ⟨htok, hrs⟩)]
      simp only [hdec, hvalid, Bool.not_true, Bool.false_eq_true, if_false, hte]
      rw [if_neg (by omega)]
    · intro hgt
      unfold validUserToken
      rw [if_neg (by push_neg; exact ⟨htok, hrs⟩)]
      simp only [hdec, hvalid, Bool.not_true, Bool.false_eq_true, if_false, hte]
      rw [if_pos hgt]
  · intro appId userId correctSecret hdec honly hneq
    have hfalse : validSecret tdb appId rawSecret = false := by
      unfold validSecret
      rw [Hash_eq_ok]
      show ValidSecret tdb (hashOk rawSecret SecretSize) appId = false
      unfold ValidSecret
      rcases hl : mapLookup tdb.secretToApp (hashOk rawSecret SecretSize) with _ | v
      · rfl
      · have hv : v ≠ appId := by
          intro hv
          exact hneq (honly _ _ (mapLookup_mem _ _ _ hl) hv)
        simp [hv]
    by_cases hts : token = "" ∨ rawSecret = ""
    · unfold validUserToken
      rw [if_pos hts]
    · unfold validUserToken
      rw [if_neg hts]
      simp only [hdec, hfalse, Bool.not_false, if_true]

/-- Witness for C4: each branch at a concrete state, token and secrets. -/
theorem c4_validate_user_token_witness :
    validUserToken ⟨[("aaaa", ⟨"A", "a@x.com", 3600, "https://x.com/cb", 25⟩)],
        [(hashOk "goodsecret" SecretSize, "aaaa")], [("aaaa-bbbb-cccc", 100)]⟩
      "" "goodsecret" 50 =
      (false, ⟨[("aaaa", ⟨"A", "a@x.com", 3600, "https://x.com/cb", 25⟩)],
        [(hashOk "goodsecret" SecretSize, "aaaa")], [("aaaa-bbbb-cccc", 100)]⟩) ∧
    (validUserToken ⟨[("aaaa", ⟨"A", "a@x.com", 3600, "https://x.com/cb", 25⟩)],
        [(hashOk "goodsecret" SecretSize, "aaaa")], [("aaaa-bbbb-cccc", 100)]⟩
      "not-a-token-x-y" "goodsecret" 50).1 = false ∧
    validUserToken ⟨[("aaaa", ⟨"A", "a@x.com", 3600, "https://x.com/cb", 25⟩)],
        [(hashOk "goodsecret" SecretSize, "aaaa")], [("aaaa-bbbb-cccc", 100)]⟩
      "aaaa-bbbb-cccc" "goodsecret" 50 =
      (true, ⟨[("aaaa", ⟨"A", "a@x.com", 3600, "https://x.com/cb", 25⟩)],
        [(hashOk "goodsecret" SecretSize, "aaaa")], [("aaaa-bbbb-cccc", 100)]⟩) ∧
    validUserToken ⟨[("aaaa", ⟨"A", "a@x.com", 3600, "https://x.com/cb", 25⟩)],
        [(hashOk "goodsecret" SecretSize, "aaaa")], [("aaaa-bbbb-cccc", 100)]⟩
      "aaaa-bbbb-cccc" "goodsecret" 200 =
      (false, DeleteToken ⟨[("aaaa", ⟨"A", "a@x.com", 3600, "https://x.com/cb", 25⟩)],
        [(hashOk "goodsecret" SecretSize, "aaaa")], [("aaaa-bbbb-cccc", 100)]⟩
        "aaaa-bbbb-cccc") ∧
    (validUserToken ⟨[("aaaa", ⟨"A", "a@x.com", 3600, "https://x.com/cb", 25⟩)],
        [(hashOk "goodsecret" SecretSize, "aaaa")], [("aaaa-bbbb-cccc", 100)]⟩
      "aaaa-bbbb-cccc" "badsecret" 50).1 = false :=
  ⟨(c4_validate_user_token _ "aaaa-bbbb-cccc" "goodsecret" 50).1,
   (c4_validate_user_token _ "not-a-token-x-y" "goodsecret" 50).2.2.1
     "invalid token" (by decide),
   ((c4_validate_user_token _ "aaaa-bbbb-cccc" "goodsecret" 50).2.2.2.1
       "aaaa" "bbbb" 100 (by decide) (by decide) (by decide) (by decide)).1 (by decide),
   ((c4_validate_user_token _ "aaaa-bbbb-cccc" "goodsecret" 200).2.2.2.1
       "aaaa" "bbbb" 100 (by decide) (by decide) (by decide) (by decide)).2 (by decide),
   (c4_validate_user_token _ "aaaa-bbbb-cccc" "badsecret" 50).2.2.2.2
     "aaaa" "bbbb" "goodsecret" (by decide)
     (fun k v hkv hv => by
       have h := List.mem_singleton.mp hkv
       exact congrArg Prod.fst h)
     (by decide)⟩

/-- C2 counterexample: an app with `usersQuota` 1 whose single stored token
has already passed its expiry instant (expiration 5, current time 10^9).
The claim says issuing after a session has passed its expiry succeeds again,
but `magicLink` still fails with the quota error and stores nothing, because
the quota check counts stored tokens regardless of expiry. -/
theorem c2_quota_counterexample :
    (5 : Int) < 1000000000 ∧
    magicLink ⟨[("aaaa", ⟨"A", "admin@x.com", 3600, "https://x.com/cb", 1⟩)],
        [(hashOk "sekrit" SecretSize, "aaaa")],
        [("aaaa-bbbb-0000000000000000", 5)]⟩
      "sekrit" "user@y.com" "" 0 [1, 2, 3, 4, 5, 6, 7, 8] 1000000000 =
      (.error "users quota reached",
       ⟨[("aaaa", ⟨"A", "admin@x.com", 3600, "https://x.com/cb", 1⟩)],
        [(hashOk "sekrit" SecretSize, "aaaa")],
        [("aaaa-bbbb-0000000000000000", 5)]⟩) := by decide

/-- C2 (amended): the quota check counts every stored token prefixed by the
app id regardless of expiry. Issuing fails with the quota error and leaves
the state unchanged whenever the stored count has reached `usersQuota` —
also when counted tokens are already past their expiry instant — and
issuing succeeds when the stored count is below the quota, in particular
after one of the counted tokens has been deleted; the mere passage of an
expiry instant does not free a slot until that token is deleted (by
validation, re-issuance or the sweep). -/
theorem c2_quota_amended
    (tdb : TempDriver) (rawSecret email redirectURL : String) (duration : Nat)
    (bToken : List Nat) (now : Int) (app : App) (appId : String)
    (hs : rawSecret ≠ "") (he : email ≠ "") (ha : appId ≠ "")
    (hfind : AppBySecret tdb (hashOk rawSecret SecretSize) = .ok (app, appId)) :
    (CountTokens tdb appId ≥ app.usersQuota →
      magicLink tdb rawSecret email redirectURL duration bToken now =
        (.error "users quota reached", tdb)) ∧
    (CountTokens tdb appId < app.usersQuota →
      (magicLink tdb rawSecret email redirectURL duration bToken now).1 =
        .ok (buildLink (if redirectURL ≠ "" then redirectURL else app.redirectURL)
              (strJoin [appId, hashOk email UserIdSize, hexEncode bToken] TokenSeparator),
            strJoin [appId, hashOk email UserIdSize, hexEncode bToken] TokenSeparator,
            app.name)) ∧
    (∀ tok exp, (tok, exp) ∈ tdb.tokens → strStartsWith tok appId = true →
      CountTokens tdb appId ≤ app.usersQuota →
      (magicLink (DeleteToken tdb tok) rawSecret email redirectURL duration bToken now).1 =
        .ok (buildLink (if redirectURL ≠ "" then redirectURL else app.redirectURL)
              (strJoin [appId, hashOk email UserIdSize, hexEncode bToken] TokenSeparator),
            strJoin [appId, hashOk email UserIdSize, hexEncode bToken] TokenSeparator,
            app.name)) := by
  refine ⟨?_, ?_, ?_⟩
  · intro hq
    unfold magicLink
    rw [if_neg (by push_neg; exact ⟨hs, he⟩)]
    simp only [Hash_eq_ok, hfind]
    rw [if_pos hq]
  · intro hq
    rw [magicLink_success tdb rawSecret email redirectURL duration bToken now app appId
      hs he ha hfind hq]
  · intro tok exp hmem hpre hle
    have hfind' : AppBySecret (DeleteToken tdb tok) (hashOk rawSecret SecretSize) =
        .ok (app, appId) := hfind
    have hcnt : CountTokens (DeleteToken tdb tok) appId < app.usersQuota := by
      have hlt := tokens_filter_erase_lt tdb.tokens tok exp
        (fun kv => strStartsWith kv.1 appId) hmem (fun _ => hpre)
      unfold CountTokens at hle ⊢
      rw [if_neg ha] at hle ⊢
      have htoks : (DeleteToken tdb tok).tokens = mapErase tdb.tokens tok := rfl
      rw [htoks]
      omega
    rw [magicLink_success (DeleteToken tdb tok) rawSecret email redirectURL duration bToken now
      app appId hs he ha hfind' hcnt]

/-- Witness for C2: quota reached fails; after deleting the counted token,
issuing succeeds. -/
theorem c2_quota_amended_witness :
    magicLink ⟨[("aaaa", ⟨"A", "admin@x.com", 3600, "https://x.com/cb", 1⟩)],
        [(hashOk "sekrit" SecretSize, "aaaa")], [("aaaa-bbbb-0000000000000000", 5)]⟩
      "sekrit" "user@y.com" "" 0 [1, 2, 3, 4, 5, 6, 7, 8] 0 =
      (.error "users quota reached",
       ⟨[("aaaa", ⟨"A", "admin@x.com", 3600, "https://x.com/cb", 1⟩)],
        [(hashOk "sekrit" SecretSize, "aaaa")], [("aaaa-bbbb-0000000000000000", 5)]⟩) ∧
    (magicLink (DeleteToken ⟨[("aaaa", ⟨"A", "admin@x.com", 3600, "https://x.com/cb", 1⟩)],
        [(hashOk "sekrit" SecretSize, "aaaa")], [("aaaa-bbbb-0000000000000000", 5)]⟩
        "aaaa-bbbb-0000000000000000")
      "sekrit" "user@y.com" "" 0 [1, 2, 3, 4, 5, 6, 7, 8] 0).1 =
      .ok (buildLink (if ("" : String) ≠ "" then "" else "https://x.com/cb")
            (strJoin ["aaaa", hashOk "user@y.com" UserIdSize,
              hexEncode [1, 2, 3, 4, 5, 6, 7, 8]] TokenSeparator),
          strJoin ["aaaa", hashOk "user@y.com" UserIdSize,
            hexEncode [1, 2, 3, 4, 5, 6, 7, 8]] TokenSeparator, "A") :=
  ⟨(c2_quota_amended ⟨[("aaaa", ⟨"A", "admin@x.com", 3600, "https://x.com/cb", 1⟩)],
        [(hashOk "sekrit" SecretSize, "aaaa")], [("aaaa-bbbb-0000000000000000", 5)]⟩
      "sekrit" "user@y.com" "" 0 [1, 2, 3, 4, 5, 6, 7, 8] 0
      ⟨"A", "admin@x.com", 3600, "https://x.com/cb", 1⟩ "aaaa"
      (by decide) (by decide) (by decide) (by decide)).1 (by decide),
   (c2_quota_amended ⟨[("aaaa", ⟨"A", "admin@x.com", 3600, "https://x.com/cb", 1⟩)],
        [(hashOk "sekrit" SecretSize, "aaaa")], [("aaaa-bbbb-0000000000000000", 5)]⟩
      "sekrit" "user@y.com" "" 0 [1, 2, 3, 4, 5, 6, 7, 8] 0
      ⟨"A", "admin@x.com", 3600, "https://x.com/cb", 1⟩ "aaaa"
      (by decide) (by decide) (by decide) (by decide)).2.2
     "aaaa-bbbb-0000000000000000" 5 (by decide) (by decide) (by decide)⟩

/-- C3: issuing a second token for the same `(appId, subjectId)` pair first
deletes every stored token prefixed by `appId-subjectId`: after the second
issuance succeeds, the resulting state carries the pair prefix only on the
new token, the old token string fails validation at every instant, and the
new token validates up to its expiration. -/
theorem c3_reissue_invalidates_old_token
    (tdb : TempDriver) (rawSecret email redirectURL : String) (duration : Nat)
    (bToken : List Nat) (now now' : Int) (app : App) (appId token1 : String)
    (hs : rawSecret ≠ "") (he : email ≠ "") (ha : appId ≠ "")
    (hfind : AppBySecret tdb (hashOk rawSecret SecretSize) = .ok (app, appId))
    (hquota : CountTokens tdb appId < app.usersQuota)
    (hpre : strStartsWith token1 (strJoin [appId, hashOk email UserIdSize] TokenSeparator) = true)
    (hne : token1 ≠ strJoin [appId, hashOk email UserIdSize, hexEncode bToken] TokenSeparator)
    (hpne : strJoin [appId, hashOk email UserIdSize] TokenSeparator ≠ "")
    (hdec : DecodeUserToken
        (strJoin [appId, hashOk email UserIdSize, hexEncode bToken] TokenSeparator) =
      .ok (appId, hashOk email UserIdSize))
    (hnow : now' ≤ now +
      (if duration > 0 then (duration : Int) else app.sessionDuration) * 1000000000) :
    (magicLink tdb rawSecret email redirectURL duration bToken now).1 =
      .ok (buildLink (if redirectURL ≠ "" then redirectURL else app.redirectURL)
            (strJoin [appId, hashOk email UserIdSize, hexEncode bToken] TokenSeparator),
          strJoin [appId, hashOk email UserIdSize, hexEncode bToken] TokenSeparator,
          app.name) ∧
    (validUserToken (magicLink tdb rawSecret email redirectURL duration bToken now).2
        token1 rawSecret now').1 = false ∧
    (validUserToken (magicLink tdb rawSecret email redirectURL duration bToken now).2
        (strJoin [appId, hashOk email UserIdSize, hexEncode bToken] TokenSeparator)
        rawSecret now').1 = true ∧
    (∀ t e, (t, e) ∈ (magicLink tdb rawSecret email redirectURL duration bToken now).2.tokens →
      strStartsWith t (strJoin [appId, hashOk email UserIdSize] TokenSeparator) = true →
      t = strJoin [appId, hashOk email UserIdSize, hexEncode bToken] TokenSeparator) := by
  rw [magicLink_success tdb rawSecret email redirectURL duration bToken now app appId
    hs he ha hfind hquota]
  have hlook : mapLookup
      (SetToken (DeleteTokensByPrefix tdb (strJoin [appId, hashOk email UserIdSize] TokenSeparator))
        (strJoin [appId, hashOk email UserIdSize, hexEncode bToken] TokenSeparator)
        (now + (if duration > 0 then (duration : Int) else app.sessionDuration) * 1000000000)).tokens
      token1 = none := by
    show mapLookup (mapInsert
      (DeleteTokensByPrefix tdb (strJoin [appId, hashOk email UserIdSize] TokenSeparator)).tokens
      (strJoin [appId, hashOk email UserIdSize, hexEncode bToken] TokenSeparator)
      (now + (if duration > 0 then (duration : Int) else app.sessionDuration) * 1000000000))
      token1 = none
    rw [mapLookup_insert_ne _ _ _ _ hne]
    rw [DeleteTokensByPrefix_tokens tdb _ hpne]
    apply mapLookup_filter_none
    intro v
    simp [hpre]
  refine ⟨rfl, ?_, ?_, ?_⟩
  · by_cases h1 : token1 = "" ∨ rawSecret = ""
    · unfold validUserToken
      rw [if_pos h1]
    · unfold validUserToken
      rw [if_neg h1]
      rcases hd : DecodeUserToken token1 with e | p
      · simp only [hd]
      · obtain ⟨a, u⟩ := p
        simp only [hd]
        have hte : TokenExpiration
            (SetToken (DeleteTokensByPrefix tdb
                (strJoin [appId, hashOk email UserIdSize] TokenSeparator))
              (strJoin [appId, hashOk email UserIdSize, hexEncode bToken] TokenSeparator)
              (now + (if duration > 0 then (duration : Int) else app.sessionDuration) *
                1000000000)) token1 = .error "token not found" := by
          unfold TokenExpiration
          rw [hlook]
        by_cases hv : validSecret
            (SetToken (DeleteTokensByPrefix tdb
                (strJoin [appId, hashOk email UserIdSize] TokenSeparator))
              (strJoin [appId, hashOk email UserIdSize, hexEncode bToken] TokenSeparator)
              (now + (if duration > 0 then (duration : Int) else app.sessionDuration) *
                1000000000)) a rawSecret = true
        · simp only [hv, Bool.not_true, Bool.false_eq_true, if_false, hte]
        · have hvf := Bool.eq_false_iff.mpr hv
          simp only [hvf, Bool.not_false, if_true]
  · have htok : strJoin [appId, hashOk email UserIdSize, hexEncode bToken] TokenSeparator ≠ "" := by
      intro h
      rw [h] at hdec
      have hrfl : DecodeUserToken "" = Except.error "invalid token" := rfl
      rw [hrfl] at hdec
      exact Except.noConfusion hdec
    unfold validUserToken
    rw [if_neg (by push_neg; exact ⟨htok, hs⟩)]
    simp only [hdec]
    have hsec : validSecret
        (SetToken (DeleteTokensByPrefix tdb
            (strJoin [appId, hashOk email UserIdSize] TokenSeparator))
          (strJoin [appId, hashOk email UserIdSize, hexEncode bToken] TokenSeparator)
          (now + (if duration > 0 then (duration : Int) else app.sessionDuration) *
            1000000000)) appId rawSecret = true := by
      apply validSecret_of_mapLookup
      show mapLookup (DeleteTokensByPrefix tdb
          (strJoin [appId, hashOk email UserIdSize] TokenSeparator)).secretToApp
          (hashOk rawSecret SecretSize) = some appId
      rw [DeleteTokensByPrefix_secretToApp]
      exact (AppBySecret_ok tdb _ app appId hfind).1
    simp only [hsec, Bool.not_true, Bool.false_eq_true, if_false]
    have hte : TokenExpiration
        (SetToken (DeleteTokensByPrefix tdb
            (strJoin [appId, hashOk email UserIdSize] TokenSeparator))
          (strJoin [appId, hashOk email UserIdSize, hexEncode bToken] TokenSeparator)
          (now + (if duration > 0 then (duration : Int) else app.sessionDuration) *
            1000000000))
        (strJoin [appId, hashOk email UserIdSize, hexEncode bToken] TokenSeparator) =
        .ok (now + (if duration > 0 then (duration : Int) else app.sessionDuration) *
          1000000000) := by
      unfold TokenExpiration
      show (match mapLookup (mapInsert
          (DeleteTokensByPrefix tdb
            (strJoin [appId, hashOk email UserIdSize] TokenSeparator)).tokens
          (strJoin [appId, hashOk email UserIdSize, hexEncode bToken] TokenSeparator)
          (now + (if duration > 0 then (duration : Int) else app.sessionDuration) * 1000000000))
          (strJoin [appId, hashOk email UserIdSize, hexEncode bToken] TokenSeparator) with
        | none => Except.error "token not found"
        | some exp => Except.ok exp) = _
      rw [mapLookup_insert_self]
    simp only [hte]
    rw [if_neg (by omega)]
  · intro t e hmem hpre'
    have hmem' : (t, e) ∈ mapInsert
        (DeleteTokensByPrefix tdb (strJoin [appId, hashOk email UserIdSize] TokenSeparator)).tokens
        (strJoin [appId, hashOk email UserIdSize, hexEncode bToken] TokenSeparator)
        (now + (if duration > 0 then (duration : Int) else app.sessionDuration) *
          1000000000) := hmem
    rcases mem_mapInsert _ _ _ _ _ hmem' with h | h
    · exact h
    · exfalso
      rw [DeleteTokensByPrefix_tokens tdb _ hpne] at h
      have := (List.mem_filter.mp h).2
      rw [hpre'] at this
      simp at this

/-- Witness for C3: a concrete re-issuance that invalidates the stored old
token for the same app and email while the new token validates. -/
theorem c3_reissue_invalidates_old_token_witness :
    (magicLink ⟨[("aaaa", ⟨"A", "admin@x.com", 3600, "https://x.com/cb", 25⟩)],
        [(hashOk "sekrit" SecretSize, "aaaa")],
        [(strJoin ["aaaa", hashOk "user@y.com" UserIdSize, "0123456789abcdef"] TokenSeparator, 5)]⟩
      "sekrit" "user@y.com" "" 0 [1, 2, 3, 4, 5, 6, 7, 8] 0).1 =
      .ok (buildLink (if ("" : String) ≠ "" then "" else "https://x.com/cb")
            (strJoin ["aaaa", hashOk "user@y.com" UserIdSize,
              hexEncode [1, 2, 3, 4, 5, 6, 7, 8]] TokenSeparator),
          strJoin ["aaaa", hashOk "user@y.com" UserIdSize,
            hexEncode [1, 2, 3, 4, 5, 6, 7, 8]] TokenSeparator, "A") ∧
    (validUserToken (magicLink ⟨[("aaaa", ⟨"A", "admin@x.com", 3600, "https://x.com/cb", 25⟩)],
        [(hashOk "sekrit" SecretSize, "aaaa")],
        [(strJoin ["aaaa", hashOk "user@y.com" UserIdSize, "0123456789abcdef"] TokenSeparator, 5)]⟩
      "sekrit" "user@y.com" "" 0 [1, 2, 3, 4, 5, 6, 7, 8] 0).2
      (strJoin ["aaaa", hashOk "user@y.com" UserIdSize, "0123456789abcdef"] TokenSeparator)
      "sekrit" 10).1 = false ∧
    (validUserToken (magicLink ⟨[("aaaa", ⟨"A", "admin@x.com", 3600, "https://x.com/cb", 25⟩)],
        [(hashOk "sekrit" SecretSize, "aaaa")],
        [(strJoin ["aaaa", hashOk "user@y.com" UserIdSize, "0123456789abcdef"] TokenSeparator, 5)]⟩
      "sekrit" "user@y.com" "" 0 [1, 2, 3, 4, 5, 6, 7, 8] 0).2
      (strJoin ["aaaa", hashOk "user@y.com" UserIdSize,
        hexEncode [1, 2, 3, 4, 5, 6, 7, 8]] TokenSeparator)
      "sekrit" 10).1 = true :=
  let h := c3_reissue_invalidates_old_token
    ⟨[("aaaa", ⟨"A", "admin@x.com", 3600, "https://x.com/cb", 25⟩)],
      [(hashOk "sekrit" SecretSize, "aaaa")],
      [(strJoin ["aaaa", hashOk "user@y.com" UserIdSize, "0123456789abcdef"] TokenSeparator, 5)]⟩
    "sekrit" "user@y.com" "" 0 [1, 2, 3, 4, 5, 6, 7, 8] 0 10
    ⟨"A", "admin@x.com", 3600, "https://x.com/cb", 25⟩ "aaaa"
    (strJoin ["aaaa", hashOk "user@y.com" UserIdSize, "0123456789abcdef"] TokenSeparator)
    (by decide) (by decide) (by decide) (by decide) (by decide) (by decide) (by decide)
    (by decide) (by decide) (by decide)
  ⟨h.1, h.2.1, h.2.2.1⟩

/-- C5 counterexample: a concrete registration whose queue push fails (the
rendered body is empty, so `Push` rejects it). The handler rolls back with
`removeApp`, which deletes the app record — but the secret-hash-to-app-id
mapping is still present afterwards, although the claim says the state
contains no mapping for the app's secret. -/
theorem c5_rollback_counterexample :
    (appTokenHandlerFlow ⟨[], [], []⟩ [] [] "App" "admin@x.com" "https://x.com/cb" 3600
        [0, 1, 2, 3, 4, 5, 6, 7, 8, 9, 10, 11, 12, 13, 14, 15] (.ok "")).1 =
      .serverError "error sending email" ∧
    AppById (appTokenHandlerFlow ⟨[], [], []⟩ [] [] "App" "admin@x.com" "https://x.com/cb" 3600
        [0, 1, 2, 3, 4, 5, 6, 7, 8, 9, 10, 11, 12, 13, 14, 15] (.ok "")).2.1
      (hashOk "admin@x.com" 4) = .error "app not found" ∧
    mapLookup (appTokenHandlerFlow ⟨[], [], []⟩ [] [] "App" "admin@x.com" "https://x.com/cb" 3600
        [0, 1, 2, 3, 4, 5, 6, 7, 8, 9, 10, 11, 12, 13, 14, 15] (.ok "")).2.1.secretToApp
      (hashOk (hexEncode [0, 1, 2, 3, 4, 5, 6, 7, 8, 9, 10, 11, 12, 13, 14, 15]) SecretSize) =
      some (hashOk "admin@x.com" 4) := by decide

/-- C5 (amended): when the queue push of the registration notification
fails, the handler rolls back with `removeApp` before surfacing the
failure: the just-registered application record and every token prefixed by
its id are deleted, and the queue is unchanged — but the
secret-hash-to-app-id mapping written by registration is not removed, so the
storage state still maps the new secret's hash to the app id. -/
theorem c5_rollback_amended
    (tdb : TempDriver) (dis : List String) (q : List Email)
    (name email redirectURL : String) (duration : Int) (bSecret : List Nat)
    (body : String) (err : EmailErr)
    (hn : name ≠ "") (he : email ≠ "") (hr : redirectURL ≠ "") (hd : duration ≥ 60)
    (hallow : Allowed dis email = true)
    (ha : hashOk email 4 ≠ "")
    (hpush : Push dis q ⟨email, "Your app '" ++ name ++ "' is ready! 🎉", body⟩ =
      (some err, q)) :
    (appTokenHandlerFlow tdb dis q name email redirectURL duration bSecret (.ok body)).1 =
      .serverError "error sending email" ∧
    AppById (appTokenHandlerFlow tdb dis q name email redirectURL duration bSecret
        (.ok body)).2.1 (hashOk email 4) = .error "app not found" ∧
    CountTokens (appTokenHandlerFlow tdb dis q name email redirectURL duration bSecret
        (.ok body)).2.1 (hashOk email 4) = 0 ∧
    (appTokenHandlerFlow tdb dis q name email redirectURL duration bSecret
        (.ok body)).2.1.secretToApp =
      mapInsert tdb.secretToApp (hashOk (hexEncode bSecret) SecretSize) (hashOk email 4) ∧
    mapLookup (appTokenHandlerFlow tdb dis q name email redirectURL duration bSecret
        (.ok body)).2.1.secretToApp (hashOk (hexEncode bSecret) SecretSize) =
      some (hashOk email 4) ∧
    (appTokenHandlerFlow tdb dis q name email redirectURL duration bSecret
        (.ok body)).2.2 = q := by
  have hflow : appTokenHandlerFlow tdb dis q name email redirectURL duration bSecret
      (.ok body) =
      (.serverError "error sending email",
       DeleteApp (DeleteTokensByPrefix
           (SetSecret (SetApp tdb (hashOk email 4)
               ⟨name, email, duration, redirectURL, defaultUsersQuota⟩)
             (hashOk (hexEncode bSecret) SecretSize) (hashOk email 4))
           (hashOk email 4)) (hashOk email 4),
       q) := by
    unfold appTokenHandlerFlow
    rw [hallow]
    simp only [Bool.not_true, Bool.false_eq_true, if_false]
    rw [authApp_success tdb name email redirectURL duration bSecret hn he hr hd]
    simp only [hpush]
    unfold removeApp
    rw [if_neg ha]
  rw [hflow]
  refine ⟨rfl, ?_, ?_, ?_, ?_, rfl⟩
  · unfold AppById
    show (match mapLookup (mapErase (DeleteTokensByPrefix
        (SetSecret (SetApp tdb (hashOk email 4)
            ⟨name, email, duration, redirectURL, defaultUsersQuota⟩)
          (hashOk (hexEncode bSecret) SecretSize) (hashOk email 4))
        (hashOk email 4)).apps (hashOk email 4)) (hashOk email 4) with
      | some app => Except.ok app
      | none => Except.error "app not found") = _
    rw [mapLookup_erase_self]
  · unfold CountTokens
    rw [if_neg ha]
    show (((DeleteTokensByPrefix
        (SetSecret (SetApp tdb (hashOk email 4)
            ⟨name, email, duration, redirectURL, defaultUsersQuota⟩)
          (hashOk (hexEncode bSecret) SecretSize) (hashOk email 4))
        (hashOk email 4)).tokens.filter
      (fun kv => strStartsWith kv.1 (hashOk email 4))).length : Int) = 0
    rw [DeleteTokensByPrefix_tokens _ _ ha]
    rw [filter_after_filter_not]
    rfl
  · show (DeleteTokensByPrefix
        (SetSecret (SetApp tdb (hashOk email 4)
            ⟨name, email, duration, redirectURL, defaultUsersQuota⟩)
          (hashOk (hexEncode bSecret) SecretSize) (hashOk email 4))
        (hashOk email 4)).secretToApp = _
    rw [DeleteTokensByPrefix_secretToApp]
    rfl
  · show mapLookup (DeleteTokensByPrefix
        (SetSecret (SetApp tdb (hashOk email 4)
            ⟨name, email, duration, redirectURL, defaultUsersQuota⟩)
          (hashOk (hexEncode bSecret) SecretSize) (hashOk email 4))
        (hashOk email 4)).secretToApp (hashOk (hexEncode bSecret) SecretSize) = _
    rw [DeleteTokensByPrefix_secretToApp]
    exact mapLookup_insert_self _ _ _

/-- Witness for C5 at a concrete failed registration. -/
theorem c5_rollback_amended_witness :
    (appTokenHandlerFlow ⟨[], [], []⟩ [] [] "App" "admin@x.com" "https://x.com/cb" 3600
        [9, 9, 9, 9, 4, 5, 6, 7, 8, 9, 10, 11, 12, 13, 14, 15] (.ok "")).1 =
      .serverError "error sending email" ∧
    AppById (appTokenHandlerFlow ⟨[], [], []⟩ [] [] "App" "admin@x.com" "https://x.com/cb" 3600
        [9, 9, 9, 9, 4, 5, 6, 7, 8, 9, 10, 11, 12, 13, 14, 15] (.ok "")).2.1
      (hashOk "admin@x.com" 4) = .error "app not found" ∧
    CountTokens (appTokenHandlerFlow ⟨[], [], []⟩ [] [] "App" "admin@x.com"
        "https://x.com/cb" 3600 [9, 9, 9, 9, 4, 5, 6, 7, 8, 9, 10, 11, 12, 13, 14, 15]
        (.ok "")).2.1 (hashOk "admin@x.com" 4) = 0 ∧
    (appTokenHandlerFlow ⟨[], [], []⟩ [] [] "App" "admin@x.com" "https://x.com/cb" 3600
        [9, 9, 9, 9, 4, 5, 6, 7, 8, 9, 10, 11, 12, 13, 14, 15] (.ok "")).2.1.secretToApp =
      mapInsert [] (hashOk (hexEncode [9, 9, 9, 9, 4, 5, 6, 7, 8, 9, 10, 11, 12, 13, 14, 15])
        SecretSize) (hashOk "admin@x.com" 4) ∧
    mapLookup (appTokenHandlerFlow ⟨[], [], []⟩ [] [] "App" "admin@x.com" "https://x.com/cb"
        3600 [9, 9, 9, 9, 4, 5, 6, 7, 8, 9, 10, 11, 12, 13, 14, 15] (.ok "")).2.1.secretToApp
      (hashOk (hexEncode [9, 9, 9, 9, 4, 5, 6, 7, 8, 9, 10, 11, 12, 13, 14, 15]) SecretSize) =
      some (hashOk "admin@x.com" 4) ∧
    (appTokenHandlerFlow ⟨[], [], []⟩ [] [] "App" "admin@x.com" "https://x.com/cb" 3600
        [9, 9, 9, 9, 4, 5, 6, 7, 8, 9, 10, 11, 12, 13, 14, 15] (.ok "")).2.2 = [] :=
  c5_rollback_amended ⟨[], [], []⟩ [] [] "App" "admin@x.com" "https://x.com/cb" 3600
    [9, 9, 9, 9, 4, 5, 6, 7, 8, 9, 10, 11, 12, 13, 14, 15] "" .invalidEmail
    (by decide) (by decide) (by decide) (by decide) (by decide) (by decide) (by decide)

/-- C10: issuing a user token through the ordinary user-token path with the
user email equal to the admin email of an app whose id is the 4-byte hash
of that email produces a token whose subject id equals the app id (both are
the truncated hash of the same email), and that token then validates as an
admin token — `validAdminToken` returns the app id and true while it is
unexpired — so an admin session is mintable via user-token issuance
alone. -/
theorem c10_admin_token_via_user_issuance
    (tdb : TempDriver) (rawSecret adminEmail redirectURL : String) (duration : Nat)
    (bToken : List Nat) (now now' : Int) (app : App)
    (hs : rawSecret ≠ "") (he : adminEmail ≠ "")
    (ha : hashOk adminEmail UserIdSize ≠ "")
    (hfind : AppBySecret tdb (hashOk rawSecret SecretSize) =
      .ok (app, hashOk adminEmail UserIdSize))
    (hquota : CountTokens tdb (hashOk adminEmail UserIdSize) < app.usersQuota)
    (hdec : DecodeUserToken (strJoin [hashOk adminEmail UserIdSize,
        hashOk adminEmail UserIdSize, hexEncode bToken] TokenSeparator) =
      .ok (hashOk adminEmail UserIdSize, hashOk adminEmail UserIdSize))
    (hnow : now' ≤ now +
      (if duration > 0 then (duration : Int) else app.sessionDuration) * 1000000000) :
    (magicLink tdb rawSecret adminEmail redirectURL duration bToken now).1 =
      .ok (buildLink (if redirectURL ≠ "" then redirectURL else app.redirectURL)
            (strJoin [hashOk adminEmail UserIdSize, hashOk adminEmail UserIdSize,
              hexEncode bToken] TokenSeparator),
          strJoin [hashOk adminEmail UserIdSize, hashOk adminEmail UserIdSize,
            hexEncode bToken] TokenSeparator,
          app.name) ∧
    (validAdminToken (magicLink tdb rawSecret adminEmail redirectURL duration bToken now).2
        (strJoin [hashOk adminEmail UserIdSize, hashOk adminEmail UserIdSize,
          hexEncode bToken] TokenSeparator)
        rawSecret now').1 = (hashOk adminEmail UserIdSize, true) := by
  rw [magicLink_success tdb rawSecret adminEmail redirectURL duration bToken now app
    (hashOk adminEmail UserIdSize) hs he ha hfind hquota]
  refine ⟨rfl, ?_⟩
  have htok : strJoin [hashOk adminEmail UserIdSize, hashOk adminEmail UserIdSize,
      hexEncode bToken] TokenSeparator ≠ "" := by
    intro h
    rw [h] at hdec
    have hrfl : DecodeUserToken "" = Except.error "invalid token" := rfl
    rw [hrfl] at hdec
    exact Except.noConfusion hdec
  unfold validAdminToken
  rw [if_neg (by push_neg; exact ⟨htok, hs⟩)]
  simp only [hdec]
  rw [if_neg (fun h => h rfl)]
  have hsec : validSecret
      (SetToken (DeleteTokensByPrefix tdb
          (strJoin [hashOk adminEmail UserIdSize, hashOk adminEmail UserIdSize] TokenSeparator))
        (strJoin [hashOk adminEmail UserIdSize, hashOk adminEmail UserIdSize,
          hexEncode bToken] TokenSeparator)
        (now + (if duration > 0 then (duration : Int) else app.sessionDuration) *
          1000000000)) (hashOk adminEmail UserIdSize) rawSecret = true := by
    apply validSecret_of_mapLookup
    show mapLookup (DeleteTokensByPrefix tdb
        (strJoin [hashOk adminEmail UserIdSize, hashOk adminEmail UserIdSize]
          TokenSeparator)).secretToApp (hashOk rawSecret SecretSize) =
      some (hashOk adminEmail UserIdSize)
    rw [DeleteTokensByPrefix_secretToApp]
    exact (AppBySecret_ok tdb _ app (hashOk adminEmail UserIdSize) hfind).1
  simp only [hsec, Bool.not_true, Bool.false_eq_true, if_false]
  have hte : TokenExpiration
      (SetToken (DeleteTokensByPrefix tdb
          (strJoin [hashOk adminEmail UserIdSize, hashOk adminEmail UserIdSize] TokenSeparator))
        (strJoin [hashOk adminEmail UserIdSize, hashOk adminEmail UserIdSize,
          hexEncode bToken] TokenSeparator)
        (now + (if duration > 0 then (duration : Int) else app.sessionDuration) *
          1000000000))
      (strJoin [hashOk adminEmail UserIdSize, hashOk adminEmail UserIdSize,
        hexEncode bToken] TokenSeparator) =
      .ok (now + (if duration > 0 then (duration : Int) else app.sessionDuration) *
        1000000000) := by
    unfold TokenExpiration
    show (match mapLookup (mapInsert
        (DeleteTokensByPrefix tdb
          (strJoin [hashOk adminEmail UserIdSize, hashOk adminEmail UserIdSize]
            TokenSeparator)).tokens
        (strJoin [hashOk adminEmail UserIdSize, hashOk adminEmail UserIdSize,
          hexEncode bToken] TokenSeparator)
        (now + (if duration > 0 then (duration : Int) else app.sessionDuration) * 1000000000))
        (strJoin [hashOk adminEmail UserIdSize, hashOk adminEmail UserIdSize,
          hexEncode bToken] TokenSeparator) with
      | none => Except.error "token not found"
      | some exp => Except.ok exp) = _
    rw [mapLookup_insert_self]
  simp only [hte]
  rw [if_neg (by omega)]

/-- Witness for C10: a concrete app registered from its admin email; issuing
a user token for that same email yields a token that validates as an admin
token. -/
theorem c10_admin_token_via_user_issuance_witness :
    (magicLink ⟨[(hashOk "admin@x.com" UserIdSize,
          ⟨"A", "admin@x.com", 3600, "https://x.com/cb", 25⟩)],
        [(hashOk "topsecret" SecretSize, hashOk "admin@x.com" UserIdSize)], []⟩
      "topsecret" "admin@x.com" "" 0 [1, 2, 3, 4, 5, 6, 7, 8] 0).1 =
      .ok (buildLink (if ("" : String) ≠ "" then "" else "https://x.com/cb")
            (strJoin [hashOk "admin@x.com" UserIdSize, hashOk "admin@x.com" UserIdSize,
              hexEncode [1, 2, 3, 4, 5, 6, 7, 8]] TokenSeparator),
          strJoin [hashOk "admin@x.com" UserIdSize, hashOk "admin@x.com" UserIdSize,
            hexEncode [1, 2, 3, 4, 5, 6, 7, 8]] TokenSeparator, "A") ∧
    (validAdminToken (magicLink ⟨[(hashOk "admin@x.com" UserIdSize,
          ⟨"A", "admin@x.com", 3600, "https://x.com/cb", 25⟩)],
        [(hashOk "topsecret" SecretSize, hashOk "admin@x.com" UserIdSize)], []⟩
      "topsecret" "admin@x.com" "" 0 [1, 2, 3, 4, 5, 6, 7, 8] 0).2
      (strJoin [hashOk "admin@x.com" UserIdSize, hashOk "admin@x.com" UserIdSize,
        hexEncode [1, 2, 3, 4, 5, 6, 7, 8]] TokenSeparator)
      "topsecret" 1000).1 = (hashOk "admin@x.com" UserIdSize, true) :=
  c10_admin_token_via_user_issuance
    ⟨[(hashOk "admin@x.com" UserIdSize, ⟨"A", "admin@x.com", 3600, "https://x.com/cb", 25⟩)],
      [(hashOk "topsecret" SecretSize, hashOk "admin@x.com" UserIdSize)], []⟩
    "topsecret" "admin@x.com" "" 0 [1, 2, 3, 4, 5, 6, 7, 8] 0 1000
    ⟨"A", "admin@x.com", 3600, "https://x.com/cb", 25⟩
    (by decide) (by decide) (by decide) (by decide) (by decide) (by decide) (by decide)

end AuthAPI
